import Mathlib

/-!
Verification of the `os.urandom` Lua module (src/src/urandom.c) and the
`secrandom` backend resolver (src/src/secrandom.h), as a shallow embedding.

The session state `urandom_t` is embedded as `Urandom`; the Lua methods
`read`, `bytes`, `get8u`/`get16u`/`get32u` and `close` become pure Lean
functions over that state, with the `read(2)` system call supplied as an
explicit oracle argument.  The `secrandom` backend chain is embedded with
each backend's outcome supplied as a parameter, and the function returns
the ordered trace of backends actually tried together with the final
result.
-/

namespace OsUrandom

/-- Linux errno for a bad file descriptor. -/
def EBADF : Nat := 9

/-- Linux errno for an invalid argument. -/
def EINVAL : Nat := 22

/-- State of one `os.urandom` session (`urandom_t` in src/src/urandom.c):
`fdOpen` models `fd != -1`, `refBuf` models holding a Lua reference to the
storage userdata (`ref_buf != LUA_NOREF`), `cap` is the allocated capacity,
`len` the valid length, and `buf` the storage contents as a byte list. -/
structure Urandom where
  fdOpen : Bool
  refBuf : Bool
  cap : Nat
  len : Nat
  buf : List Nat
deriving DecidableEq

/-- Error object pushed by the accessors: either a bare errno error
(`lua_errno_new`) or an errno error with a formatted diagnostic
(`lua_errno_new_with_message`).  The payloads record exactly the values
interpolated by the `snprintf` calls in `getu_lua`. -/
inductive UErr where
  | badf (op : String)
  | outOfRange (nbit off1 : Nat)
  | insufficient (count nbit off1 : Nat)
deriving DecidableEq

/-- errno carried by each error object. -/
def UErr.errnoOf : UErr → Nat
  | .badf _ => EBADF
  | .outOfRange _ _ => EINVAL
  | .insufficient _ _ _ => EINVAL

/-- The formatted diagnostic attached via `lua_errno_new_with_message`
(mirroring the two `snprintf` format strings in `getu_lua`); `badf` errors
carry no custom message. -/
def UErr.message : UErr → Option String
  | .badf _ => none
  | .outOfRange nbit off1 =>
      some ("failed to get elements (" ++ toString nbit ++
        "-bit width) at element offset " ++ toString off1 ++ ": out of range")
  | .insufficient c nbit off1 =>
      some ("failed to get " ++ toString c ++ " elements (" ++ toString nbit ++
        "-bit width) at element offset " ++ toString off1 ++
        ": insufficient data")

/-- Result of the `read` method: `ok n` pushes the integer `n`; `fail e`
pushes `nil` followed by an errno error object. -/
inductive RRes where
  | ok (n : Nat)
  | fail (errno : Nat)
deriving DecidableEq

/-- Result of the `bytes` method: a byte string, a bare `nil` (no data,
no error), or `nil` plus an error object. -/
inductive BytesRes where
  | data (s : List Nat)
  | noData
  | err (e : UErr)
deriving DecidableEq

/-- Result of the typed accessors `get8u`/`get16u`/`get32u`: an array of
unsigned integers, or `nil` plus an error object. -/
inductive GetuRes where
  | arr (xs : List Nat)
  | err (e : UErr)
deriving DecidableEq

/-- Outcome of one `read(2)` call on an open descriptor, supplied by the
operating system: `ok data` is a non-negative return delivering `data`
(`data.length` bytes), `err e` is a negative return with `errno = e`. -/
inductive OsRead where
  | ok (data : List Nat)
  | err (errno : Nat)
deriving DecidableEq

/-- POSIX `read(2)` on the session descriptor: reading a closed descriptor
fails with `EBADF`; on an open descriptor the outcome `osr` is whatever the
operating system produces. -/
def sysRead (fdOpen : Bool) (osr : OsRead) : OsRead :=
  if fdOpen then osr else .err EBADF

/-- Value of a byte list read least-significant-byte first. -/
def leVal : List Nat → Nat
  | [] => 0
  | b :: rest => b + 256 * leVal rest

/-- The `w` raw bytes of value `v`, least significant first. -/
def leBytes : Nat → Nat → List Nat
  | 0, _ => []
  | w + 1, v => v % 256 :: leBytes w (v / 256)

/-- Host-native decoding of a byte window into an unsigned integer: the
union accesses `u->i8` / `u->i16` / `u->i32` read `w` consecutive bytes in
the host byte order (`le = true` on little-endian hosts). -/
def decodeWord (le : Bool) (bs : List Nat) : Nat :=
  if le then leVal bs else leVal bs.reverse

/-- Raw bytes of an unsigned integer of width `w` in host byte order. -/
def encodeWord (le : Bool) (w v : Nat) : List Nat :=
  if le then leBytes w v else (leBytes w v).reverse

/-- The element walk of `getu_lua` (`push_ival`): element `i` (0-based) is
read from the `w` consecutive bytes starting at byte index `(off + i) * w`
of the storage. -/
def decodeWords (le : Bool) (w : Nat) (buf : List Nat) (off cnt : Nat) :
    List Nat :=
  (List.range cnt).map fun i => decodeWord le ((buf.drop ((off + i) * w)).take w)

/-- `read_lua` (src/src/urandom.c lines 165-186): picks a fresh allocation
when `nbyte != cap`, issues one `read(2)`, and on success commits the new
buffer (when reallocated) and sets `len` to the byte count actually read.
On failure nothing is committed.  Uninitialized bytes of a fresh
allocation are modelled as zeros; they lie beyond `len` and are never
exposed. -/
def read_lua (u : Urandom) (nbyte : Nat) (osr : OsRead) : Urandom × RRes :=
  match sysRead u.fdOpen osr with
  | .err e => (u, .fail e)
  | .ok data =>
    let n := data.length
    if nbyte ≠ u.cap then
      ({ u with
          buf := data ++ List.replicate (nbyte - n) 0
          cap := nbyte
          refBuf := true
          len := n }, .ok n)
    else
      ({ u with buf := data ++ u.buf.drop n, len := n }, .ok n)

/-- `bytes_lua` (src/src/urandom.c lines 137-163): `count` defaults to
`len`, `offset` defaults to 1 (1-based); a closed descriptor yields an
`EBADF` error, an offset at or past `len` yields a bare `nil`, otherwise
the count is clamped to the bytes remaining and that many bytes from the
storage are returned. -/
def bytes_lua (u : Urandom) (count offset : Option Nat) : BytesRes :=
  let nbyte := count.getD u.len
  let off := offset.getD 1 - 1
  if u.fdOpen = false then .err (.badf "os.urandom.bytes")
  else if u.len ≤ off then .noData
  else
    let maxlen := u.len - off
    let nb := if maxlen < nbyte then maxlen else nbyte
    .data ((u.buf.drop off).take nb)

/-- `getu_lua` (src/src/urandom.c lines 49-120): shared body of the typed
accessors.  `count` omitted is the `SIZE_MAX` sentinel of `lauxh_optpint`,
`offset` defaults to 1 (1-based).  Checks, in order: closed descriptor
(`EBADF`), offset at or past `len / (nbit/8)` (out of range), count above
the remaining element count (insufficient data); otherwise returns the
decoded element walk. -/
def getu_lua (le : Bool) (u : Urandom) (op : String) (nbit : Nat)
    (count offset : Option Nat) : GetuRes :=
  let byte := nbit / 8
  let maxcount := u.len / byte
  let off := offset.getD 1 - 1
  if u.fdOpen = false then .err (.badf op)
  else if maxcount ≤ off then .err (.outOfRange nbit (off + 1))
  else
    let mc := maxcount - off
    let cnt := count.getD mc
    if mc < cnt then .err (.insufficient cnt nbit (off + 1))
    else .arr (decodeWords le byte u.buf off cnt)

/-- `get8u_lua` (src/src/urandom.c lines 132-135). -/
def get8u_lua (le : Bool) (u : Urandom) (count offset : Option Nat) : GetuRes :=
  getu_lua le u "os.urandom.get8u" 8 count offset

/-- `get16u_lua` (src/src/urandom.c lines 127-130). -/
def get16u_lua (le : Bool) (u : Urandom) (count offset : Option Nat) : GetuRes :=
  getu_lua le u "os.urandom.get16u" 16 count offset

/-- `get32u_lua` (src/src/urandom.c lines 122-125). -/
def get32u_lua (le : Bool) (u : Urandom) (count offset : Option Nat) : GetuRes :=
  getu_lua le u "os.urandom.get32u" 32 count offset

/-- `close_lua` (src/src/urandom.c lines 188-199): closes the descriptor if
open and releases the Lua reference to the storage (`lauxh_unref`); it
never touches `cap`, `len` or the storage contents, and always returns
zero results (success). -/
def close_lua (u : Urandom) : Urandom :=
  { u with fdOpen := false, refBuf := false }

/-- A concrete open session holding 16 valid bytes, used to exercise
`close_lua` at a specific input. -/
def uC3 : Urandom :=
  { fdOpen := true, refBuf := true, cap := 16, len := 16,
    buf := List.replicate 16 7 }

/-- Outcome of one backend attempt in secrandom.h
(`secrandom_result_e`). -/
inductive SRes where
  | success
  | failure
  | unsupported
deriving DecidableEq

/-- The POSIX backends of secrandom.h, in the order they appear in the
fallback chain of `secrandom`. -/
inductive Backend where
  | ossl
  | arc4random
  | getentropy
  | urandomDev
deriving DecidableEq

/-- `secrandom` (src/src/secrandom.h lines 423-474, POSIX branch): given
whether the OpenSSL backend is mandatory (`secrandom_ossl_fips_enabled()`
or `SECRANDOM_PREFER_OPENSSL`) and the outcome each backend would produce,
returns the ordered trace of backends actually called together with the
final `secrandom_result_e` (the last assigned `rc`). -/
def secrandom (bufIsNull : Bool) (len : Nat) (mand : Bool)
    (ossl arc4 ge ur : SRes) : List Backend × SRes :=
  if bufIsNull then ([], .failure)
  else if len = 0 then ([], .success)
  else if mand = true ∧ ossl = .success then ([.ossl], .success)
  else
    let pre : List Backend := if mand then [.ossl] else []
    if arc4 = .success then (pre ++ [.arc4random], .success)
    else if ge = .success then (pre ++ [.arc4random, .getentropy], .success)
    else if ur = .success then
      (pre ++ [.arc4random, .getentropy, .urandomDev], .success)
    else if mand = false ∧ ossl = .success then
      (pre ++ [.arc4random, .getentropy, .urandomDev, .ossl], .success)
    else if mand then ([.ossl, .arc4random, .getentropy, .urandomDev], ur)
    else ([.arc4random, .getentropy, .urandomDev, .ossl], ossl)

/-- Declarative priority chain: try each backend in list order, stopping at
the first success; the trace records exactly the backends tried, and when
none succeeds the result is the last backend's outcome (`rc` starts at
`SECRANDOM_SUCCESS`, matching the initializer in `secrandom`). -/
def tryChain (rc : SRes) : List (Backend × SRes) → List Backend × SRes
  | [] => ([], rc)
  | (b, r) :: rest =>
    if r = .success then ([b], .success)
    else
      let t := tryChain r rest
      (b :: t.1, t.2)

/-- Re-encoding the little-endian value of a byte list recovers the
list. -/
theorem leBytes_leVal (bs : List Nat) (h : ∀ b ∈ bs, b < 256) :
    leBytes bs.length (leVal bs) = bs := by
  induction bs with
  | nil => rfl
  | cons b rest ih =>
    have hb : b < 256 := h b (List.mem_cons_self b rest)
    have hr : ∀ x ∈ rest, x < 256 := fun x hx => h x (List.mem_cons_of_mem b hx)
    have h1 : (b + 256 * leVal rest) % 256 = b := by omega
    have h2 : (b + 256 * leVal rest) / 256 = leVal rest := by omega
    simp [leBytes, leVal, h1, h2, ih hr]

/-- Re-encoding a decoded word in the same byte order recovers the raw
bytes. -/
theorem encodeWord_decodeWord (le : Bool) (bs : List Nat)
    (h : ∀ b ∈ bs, b < 256) :
    encodeWord le bs.length (decodeWord le bs) = bs := by
  cases le with
  | true => simp [encodeWord, decodeWord, leBytes_leVal bs h]
  | false =>
    have h2 : ∀ b ∈ bs.reverse, b < 256 := fun b hb =>
      h b (List.mem_reverse.mp hb)
    have h3 := leBytes_leVal bs.reverse h2
    rw [List.length_reverse] at h3
    simp [encodeWord, decodeWord, h3]

/-- A one-byte word is the byte itself in either byte order. -/
theorem decodeWord_singleton (le : Bool) (b : Nat) :
    decodeWord le [b] = b := by
  cases le <;> simp [decodeWord, leVal]

/-- The element walk always yields exactly `cnt` elements. -/
theorem decodeWords_length (le : Bool) (w : Nat) (buf : List Nat)
    (off cnt : Nat) : (decodeWords le w buf off cnt).length = cnt := by
  simp [decodeWords]

/-- Concatenating the consecutive `w`-byte windows starting at element
offset `off` reproduces the contiguous byte range they cover. -/
theorem windows_flatten (w : Nat) (buf : List Nat) (cnt off : Nat) :
    ((List.range cnt).map
        (fun i => (buf.drop ((off + i) * w)).take w)).flatten
      = (buf.drop (off * w)).take (cnt * w) := by
  induction cnt with
  | zero => simp
  | succ n ih =>
    rw [List.range_succ, List.map_append, List.flatten_append]
    simp only [List.map_cons, List.map_nil, List.flatten_cons,
      List.flatten_nil, List.append_nil]
    rw [ih, Nat.succ_mul, List.take_add, List.drop_drop, Nat.add_mul]

/-- Within bounds, re-encoding each decoded element recovers exactly its
`w`-byte window. -/
theorem decodeWords_map_encode (le : Bool) (w : Nat) (buf : List Nat)
    (off cnt : Nat) (hw : 0 < w) (hle : (off + cnt) * w ≤ buf.length)
    (hb : ∀ b ∈ buf, b < 256) :
    (decodeWords le w buf off cnt).map (encodeWord le w)
      = (List.range cnt).map (fun i => (buf.drop ((off + i) * w)).take w) := by
  unfold decodeWords
  rw [List.map_map]
  apply List.map_congr_left
  intro i hi
  have hi2 : i < cnt := List.mem_range.mp hi
  have hbd : (off + i) * w + w ≤ buf.length := by
    calc (off + i) * w + w = (off + i + 1) * w := by ring
    _ ≤ (off + cnt) * w := Nat.mul_le_mul_right w (by omega)
    _ ≤ buf.length := hle
  have hwin : ((buf.drop ((off + i) * w)).take w).length = w := by
    simp only [List.length_take, List.length_drop]
    omega
  have hwb : ∀ b ∈ (buf.drop ((off + i) * w)).take w, b < 256 :=
    fun b hbm => hb b (List.mem_of_mem_drop (List.mem_of_mem_take hbm))
  have h5 := encodeWord_decodeWord le ((buf.drop ((off + i) * w)).take w) hwb
  rw [hwin] at h5
  simpa using h5

/-- With width 1 the element walk over the first `cnt` bytes is exactly
those bytes. -/
theorem decodeWords_one (le : Bool) (buf : List Nat) (cnt : Nat)
    (h : cnt ≤ buf.length) :
    decodeWords le 1 buf 0 cnt = buf.take cnt := by
  apply List.ext_getElem
  · simp only [decodeWords, List.length_map, List.length_range,
      List.length_take]
    omega
  · intro i h1 h2
    have hcnt : i < cnt := by
      simpa [decodeWords] using h1
    have hib : i < buf.length := by omega
    simp only [decodeWords, List.getElem_map, List.getElem_range,
      List.getElem_take, Nat.zero_add, Nat.mul_one]
    rw [List.drop_eq_getElem_cons hib, List.take_succ_cons, List.take_zero]
    exact decodeWord_singleton le _

/-- A successful full read commits the data: the result value is the byte
count, the descriptor stays open, `len` becomes the byte count, and the
first `data.length` bytes of storage are exactly the data read. -/
theorem read_lua_ok (u : Urandom) (nbyte : Nat) (data : List Nat)
    (hopen : u.fdOpen = true) :
    (read_lua u nbyte (.ok data)).2 = .ok data.length
    ∧ (read_lua u nbyte (.ok data)).1.fdOpen = true
    ∧ (read_lua u nbyte (.ok data)).1.len = data.length
    ∧ (read_lua u nbyte (.ok data)).1.buf.take data.length = data := by
  by_cases hc : nbyte ≠ u.cap <;>
    simp [read_lua, sysRead, hc, hopen, List.take_left']

/-- `bytes()` with both arguments omitted returns the whole valid
region. -/
theorem bytes_all (u : Urandom) (hopen : u.fdOpen = true)
    (hlen : 0 < u.len) :
    bytes_lua u none none = .data (u.buf.take u.len) := by
  have h0 : ¬ u.len ≤ 0 := by omega
  simp [bytes_lua, hopen, h0]

/-- C1 counterexample: `read(4)` on the open 16-byte session with the
single `read(2)` call delivering only 2 bytes is still committed as a
success — it returns 2 and sets `valid_len = 2`, so it does not return 4
or set `valid_len = 4`, and the following `bytes()` yields those 2 bytes,
not 4. -/
theorem claim1_short_read_counterexample :
    (read_lua uC3 4 (.ok [1, 2])).2 = .ok 2
    ∧ (read_lua uC3 4 (.ok [1, 2])).1.len = 2
    ∧ bytes_lua (read_lua uC3 4 (.ok [1, 2])).1 none none = .data [1, 2]
    ∧ ¬ ((read_lua uC3 4 (.ok [1, 2])).2 = .ok 4
        ∧ (read_lua uC3 4 (.ok [1, 2])).1.len = 4) := by
  decide

/-- C1 (amended): a successful refill commits exactly the byte count `m`
that the single `read(2)` call delivered (`m ≤ n`) — it returns `m`, sets
`valid_len = m`, and when `m > 0` a following `bytes()` with no arguments
returns exactly those `m` bytes.  In particular a full read (`m = n`)
returns `n`, sets `valid_len = n`, and `bytes()` then has length `n`. -/
theorem claim1_refill_sets_len_to_bytes_read (u : Urandom) (n : Nat)
    (data : List Nat) (hopen : u.fdOpen = true) (hlen : data.length ≤ n) :
    (read_lua u n (.ok data)).2 = .ok data.length
    ∧ (read_lua u n (.ok data)).1.len = data.length
    ∧ (0 < data.length →
        bytes_lua (read_lua u n (.ok data)).1 none none = .data data) := by
  obtain ⟨h1, h2, h3, h4⟩ := read_lua_ok u n data hopen
  refine ⟨h1, h3, fun hpos => ?_⟩
  have h5 := bytes_all _ h2 (by rw [h3]; exact hpos)
  rw [h5, h3, h4]

/-- C1 witness: a read of 8 that delivers 3 bytes commits exactly those 3
bytes. -/
theorem claim1_witness :
    uC3.fdOpen = true ∧ ([1, 2, 3] : List Nat).length ≤ 8 ∧
    ((read_lua uC3 8 (.ok [1, 2, 3])).2 = .ok 3
    ∧ (read_lua uC3 8 (.ok [1, 2, 3])).1.len = 3
    ∧ (0 < ([1, 2, 3] : List Nat).length →
        bytes_lua (read_lua uC3 8 (.ok [1, 2, 3])).1 none none
          = .data [1, 2, 3])) :=
  ⟨by decide, by decide,
    claim1_refill_sets_len_to_bytes_read uC3 8 [1, 2, 3] (by decide)
      (by decide)⟩

/-- C4: on an open session, `bytes` returns a bare `nil` when the 0-based
offset is at or past `valid_len`; otherwise it returns exactly
`min count (valid_len - offset)` bytes (`count` defaulting so that the
whole remainder is returned), taken from inside the valid region
`buf.take valid_len` only. -/
theorem claim4_bytes_clamp (u : Urandom) (c koff : Option Nat)
    (hopen : u.fdOpen = true) (hlen : u.len ≤ u.buf.length)
    (hk : ∀ x ∈ koff, 1 ≤ x) (hc : ∀ x ∈ c, 1 ≤ x) :
    (u.len ≤ koff.getD 1 - 1 → bytes_lua u c koff = .noData)
    ∧ (koff.getD 1 - 1 < u.len →
        bytes_lua u c koff
          = .data (((u.buf.take u.len).drop (koff.getD 1 - 1)).take
              (c.getD u.len))
        ∧ (((u.buf.take u.len).drop (koff.getD 1 - 1)).take
              (c.getD u.len)).length
            = min (c.getD u.len) (u.len - (koff.getD 1 - 1))) := by
  constructor
  · intro h
    simp [bytes_lua, hopen, h]
  · intro h
    have hno : ¬ u.len ≤ koff.getD 1 - 1 := by omega
    have harg : (if u.len - (koff.getD 1 - 1) < c.getD u.len then
        u.len - (koff.getD 1 - 1) else c.getD u.len)
        = min (c.getD u.len) (u.len - (koff.getD 1 - 1)) := by
      split <;> omega
    constructor
    · simp only [bytes_lua, hopen, Bool.true_eq_false, if_false, hno,
        ite_false]
      rw [harg, List.drop_take, List.take_take]
    · simp only [List.length_take, List.length_drop]
      omega

/-- C4 witness: `bytes(10, 10)` on 16 valid bytes returns the 7 remaining
bytes, and `bytes(5, 17)` returns a bare `nil`. -/
theorem claim4_witness :
    uC3.fdOpen = true ∧ uC3.len ≤ uC3.buf.length ∧
    ((uC3.len ≤ (some 10 : Option Nat).getD 1 - 1 →
        bytes_lua uC3 (some 10) (some 10) = .noData)
    ∧ ((some 10 : Option Nat).getD 1 - 1 < uC3.len →
        bytes_lua uC3 (some 10) (some 10)
          = .data (((uC3.buf.take uC3.len).drop
              ((some 10 : Option Nat).getD 1 - 1)).take
              ((some 10 : Option Nat).getD uC3.len))
        ∧ (((uC3.buf.take uC3.len).drop
              ((some 10 : Option Nat).getD 1 - 1)).take
              ((some 10 : Option Nat).getD uC3.len)).length
            = min ((some 10 : Option Nat).getD uC3.len)
                (uC3.len - ((some 10 : Option Nat).getD 1 - 1)))) :=
  ⟨by decide, by decide,
    claim4_bytes_clamp uC3 (some 10) (some 10) (by decide) (by decide)
      (by decide) (by decide)⟩

/-- C2: for width `w ∈ {1,2,4}` bytes, count `c ≥ 1` and 1-based offset
`k` with `(k-1) + c ≤ valid_len / w`, the typed accessor succeeds and
returns exactly `c` unsigned integers, element `i` decoded from the `w`
consecutive bytes at byte index `(k-1+i)*w` in host byte order;
re-encoding the elements and concatenating reproduces exactly the covered
byte sub-range of the buffer, and with `w = 1` over the whole valid region
the result coincides element-for-element with `bytes()`. -/
theorem claim2_typed_view_roundtrip (le : Bool) (u : Urandom) (op : String)
    (w c k : Nat) (hopen : u.fdOpen = true)
    (hw : w = 1 ∨ w = 2 ∨ w = 4) (hc : 1 ≤ c) (hk : 1 ≤ k)
    (hrange : (k - 1) + c ≤ u.len / w) (hlen : u.len ≤ u.buf.length)
    (hb : ∀ b ∈ u.buf, b < 256) :
    getu_lua le u op (w * 8) (some c) (some k)
      = .arr (decodeWords le w u.buf (k - 1) c)
    ∧ (decodeWords le w u.buf (k - 1) c).length = c
    ∧ ((decodeWords le w u.buf (k - 1) c).map (encodeWord le w)).flatten
        = (u.buf.drop ((k - 1) * w)).take (c * w)
    ∧ (w = 1 → k = 1 → c = u.len →
        bytes_lua u none none
          = .data (decodeWords le w u.buf (k - 1) c)) := by
  have hwpos : 0 < w := by rcases hw with h | h | h <;> omega
  have hw0 : w * 8 / 8 = w := Nat.mul_div_cancel w (by omega)
  have hle2 : ((k - 1) + c) * w ≤ u.buf.length := by
    calc ((k - 1) + c) * w ≤ (u.len / w) * w := Nat.mul_le_mul_right w hrange
    _ ≤ u.len := Nat.div_mul_le_self u.len w
    _ ≤ u.buf.length := hlen
  refine ⟨?_, decodeWords_length le w u.buf (k - 1) c, ?_, ?_⟩
  · have h1 : ¬ u.len / w ≤ k - 1 := by omega
    have h2 : ¬ u.len / w - (k - 1) < c := by omega
    simp [getu_lua, hopen, hw0, h1, h2]
  · rw [decodeWords_map_encode le w u.buf (k - 1) c hwpos hle2 hb,
      windows_flatten]
  · intro hw1 hk1 hcl
    subst hw1; subst hk1
    rw [bytes_all u hopen (by omega),
      decodeWords_one le u.buf c (by omega), hcl]

/-- C2 witness: `get16u(2, 3)` on the 16-byte session succeeds with 2
elements whose re-encoded bytes are bytes 4..7 of the buffer, and the
width-1 round-trip law holds vacuously at this width. -/
theorem claim2_witness :
    uC3.fdOpen = true ∧ (2 = 1 ∨ 2 = 2 ∨ 2 = 4) ∧ 1 ≤ 2 ∧ 1 ≤ 3 ∧
    (3 - 1) + 2 ≤ uC3.len / 2 ∧ uC3.len ≤ uC3.buf.length ∧
    (∀ b ∈ uC3.buf, b < 256) ∧
    (getu_lua true uC3 "os.urandom.get16u" (2 * 8) (some 2) (some 3)
      = .arr (decodeWords true 2 uC3.buf (3 - 1) 2)
    ∧ (decodeWords true 2 uC3.buf (3 - 1) 2).length = 2
    ∧ ((decodeWords true 2 uC3.buf (3 - 1) 2).map (encodeWord true 2)).flatten
        = (uC3.buf.drop ((3 - 1) * 2)).take (2 * 2)
    ∧ (2 = 1 → 3 = 1 → 2 = uC3.len →
        bytes_lua uC3 none none
          = .data (decodeWords true 2 uC3.buf (3 - 1) 2))) :=
  ⟨by decide, by decide, by decide, by decide, by decide, by decide,
    by decide,
    claim2_typed_view_roundtrip true uC3 "os.urandom.get16u" 2 2 3
      (by decide) (by decide) (by decide) (by decide) (by decide)
      (by decide) (by decide)⟩

/-- C9: the entropy resolver tries the backends in the fixed priority
chain — the mandatory OpenSSL backend first when active (its success
short-circuiting everything), then `arc4random`, `getentropy`, the cached
`/dev/urandom` read, and OpenSSL last exactly when it was not mandatory —
and the first success ends the operation with success. -/
theorem claim9_backend_order (mand : Bool) (ossl arc4 ge ur : SRes)
    (len : Nat) (hlen : 0 < len) :
    secrandom false len mand ossl arc4 ge ur
      = tryChain .success
          ((if mand then [(.ossl, ossl)] else [])
            ++ [(.arc4random, arc4), (.getentropy, ge), (.urandomDev, ur)]
            ++ (if mand then [] else [(.ossl, ossl)]))
    ∧ ((secrandom false len mand ossl arc4 ge ur).2 = .success ↔
        (mand = true ∧ ossl = .success) ∨ arc4 = .success ∨ ge = .success
          ∨ ur = .success ∨ (mand = false ∧ ossl = .success)) := by
  have h0 : ¬ len = 0 := by omega
  cases mand <;> cases ossl <;> cases arc4 <;> cases ge <;> cases ur <;>
    simp [secrandom, tryChain, h0]

/-- C9 witness: with a mandatory OpenSSL backend that fails and only
`getentropy` succeeding, the trace is OpenSSL, `arc4random`, `getentropy`,
and the operation succeeds. -/
theorem claim9_witness :
    0 < 8 ∧
    (secrandom false 8 true .failure .failure .success .failure
      = tryChain .success
          ((if true then [(.ossl, .failure)] else [])
            ++ [(.arc4random, .failure), (.getentropy, .success),
                (.urandomDev, .failure)]
            ++ (if true then [] else [(.ossl, .failure)]))
    ∧ ((secrandom false 8 true .failure .failure .success .failure).2
          = .success ↔
        (true = true ∧ SRes.failure = .success) ∨ SRes.failure = .success
          ∨ SRes.success = .success ∨ SRes.failure = .success
          ∨ (true = false ∧ SRes.failure = .success))) :=
  ⟨by decide,
    claim9_backend_order true .failure .failure .success .failure 8
      (by decide)⟩

/-- C3 (amended part): `close_lua` marks the descriptor closed and drops the
storage reference, and it leaves `cap`, `len` and the storage contents
exactly as they were. -/
theorem claim3_close_state (u : Urandom) :
    (close_lua u).fdOpen = false ∧ (close_lua u).refBuf = false ∧
    (close_lua u).cap = u.cap ∧ (close_lua u).len = u.len ∧
    (close_lua u).buf = u.buf := by
  simp [close_lua]

/-- C3 counterexample: closing the open session `uC3`, which holds 16 valid
bytes in a 16-byte allocation, leaves `cap = len = 16`; the claimed
`capacity = valid_len = 0` after `close()` is false at this input. -/
theorem claim3_close_counterexample :
    ¬ ((close_lua uC3).cap = 0 ∧ (close_lua uC3).len = 0) := by
  decide

/-- C5: on an open session, a typed accessor whose 0-based offset `k - 1`
is at or past `valid_len / w` fails with the out-of-range error, whatever
the count argument is, and the diagnostic renders the bit width `w * 8`
and the 1-based offset `k`. -/
theorem claim5_out_of_range (le : Bool) (u : Urandom) (op : String)
    (w k : Nat) (c : Option Nat) (hopen : u.fdOpen = true)
    (hw : w = 1 ∨ w = 2 ∨ w = 4) (hk : 1 ≤ k)
    (hoor : u.len / w ≤ k - 1) :
    getu_lua le u op (w * 8) c (some k) = .err (.outOfRange (w * 8) k)
    ∧ UErr.message (.outOfRange (w * 8) k)
      = some ("failed to get elements (" ++ toString (w * 8) ++
          "-bit width) at element offset " ++ toString k ++
          ": out of range") := by
  have hw0 : w * 8 / 8 = w := Nat.mul_div_cancel w (by omega)
  refine ⟨?_, rfl⟩
  simp [getu_lua, hopen, hw0, hoor, Nat.sub_add_cancel hk]

/-- C5 witness: `get16u` at offset 17 on a 16-byte buffer (8 elements)
is out of range. -/
theorem claim5_witness :
    uC3.fdOpen = true ∧ (2 = 1 ∨ 2 = 2 ∨ 2 = 4) ∧ 1 ≤ 17 ∧
    uC3.len / 2 ≤ 17 - 1 ∧
    (getu_lua true uC3 "os.urandom.get16u" (2 * 8) none (some 17)
        = .err (.outOfRange (2 * 8) 17)
      ∧ UErr.message (.outOfRange (2 * 8) 17)
        = some ("failed to get elements (" ++ toString (2 * 8) ++
            "-bit width) at element offset " ++ toString 17 ++
            ": out of range")) :=
  ⟨by decide, by decide, by decide, by decide,
    claim5_out_of_range true uC3 "os.urandom.get16u" 2 17 none (by decide)
      (by decide) (by decide) (by decide)⟩

/-- C6: on an open session, a typed accessor whose 0-based offset is in
range but whose requested count exceeds the remaining element count fails
with the insufficient-data error, and the diagnostic renders the count,
the bit width and the 1-based offset. -/
theorem claim6_insufficient_data (le : Bool) (u : Urandom) (op : String)
    (w c k : Nat) (hopen : u.fdOpen = true)
    (hw : w = 1 ∨ w = 2 ∨ w = 4) (hk : 1 ≤ k)
    (hin : k - 1 < u.len / w) (hc : u.len / w - (k - 1) < c) :
    getu_lua le u op (w * 8) (some c) (some k)
      = .err (.insufficient c (w * 8) k)
    ∧ UErr.message (.insufficient c (w * 8) k)
      = some ("failed to get " ++ toString c ++ " elements (" ++
          toString (w * 8) ++ "-bit width) at element offset " ++
          toString k ++ ": insufficient data") := by
  have hw0 : w * 8 / 8 = w := Nat.mul_div_cancel w (by omega)
  refine ⟨?_, rfl⟩
  have hno : ¬ u.len / w ≤ k - 1 := by omega
  simp [getu_lua, hopen, hw0, hno, hc, Nat.sub_add_cancel hk]

/-- C6 witness: `get8u(20, 1)` on a 16-byte buffer requests more elements
than remain. -/
theorem claim6_witness :
    uC3.fdOpen = true ∧ (1 = 1 ∨ 1 = 2 ∨ 1 = 4) ∧ 1 ≤ 1 ∧
    1 - 1 < uC3.len / 1 ∧ uC3.len / 1 - (1 - 1) < 20 ∧
    (getu_lua true uC3 "os.urandom.get8u" (1 * 8) (some 20) (some 1)
        = .err (.insufficient 20 (1 * 8) 1)
      ∧ UErr.message (.insufficient 20 (1 * 8) 1)
        = some ("failed to get " ++ toString 20 ++ " elements (" ++
            toString (1 * 8) ++ "-bit width) at element offset " ++
            toString 1 ++ ": insufficient data")) :=
  ⟨by decide, by decide, by decide, by decide, by decide,
    claim6_insufficient_data true uC3 "os.urandom.get8u" 1 20 1 (by decide)
      (by decide) (by decide) (by decide) (by decide)⟩

/-- C7: refill is all-or-nothing — whenever `read_lua` reports a failure,
the session state (`len`, `cap`, storage contents and everything else) is
exactly what it was before the call. -/
theorem claim7_refill_all_or_nothing (u : Urandom) (n : Nat) (osr : OsRead)
    (e : Nat) (hfail : (read_lua u n osr).2 = .fail e) :
    (read_lua u n osr).1 = u := by
  unfold read_lua at hfail ⊢
  cases h : sysRead u.fdOpen osr with
  | err e2 => simp [h]
  | ok data =>
    rw [h] at hfail
    by_cases hc : n ≠ u.cap <;> simp [hc] at hfail

/-- C7 witness: a failed read (errno 5) on a session with 16 valid bytes
leaves the state untouched. -/
theorem claim7_witness :
    (read_lua uC3 4 (.err 5)).2 = .fail 5 ∧
    (read_lua uC3 4 (.err 5)).1 = uC3 :=
  ⟨by decide, claim7_refill_all_or_nothing uC3 4 (.err 5) 5 (by decide)⟩

/-- C8: after `close()`, the `read` method fails with errno `EBADF` (the
`read(2)` call on the closed descriptor), `bytes` and all three typed
accessors fail with the `EBADF` error object, and a second `close()` is a
no-op success (the state is unchanged and no error is possible). -/
theorem claim8_closed_session (v : Urandom) (n : Nat) (osr : OsRead)
    (le : Bool) (c1 o1 c2 o2 c3 o3 c4 o4 : Option Nat) :
    read_lua (close_lua v) n osr = (close_lua v, .fail EBADF)
    ∧ bytes_lua (close_lua v) c1 o1 = .err (.badf "os.urandom.bytes")
    ∧ get8u_lua le (close_lua v) c2 o2 = .err (.badf "os.urandom.get8u")
    ∧ get16u_lua le (close_lua v) c3 o3 = .err (.badf "os.urandom.get16u")
    ∧ get32u_lua le (close_lua v) c4 o4 = .err (.badf "os.urandom.get32u")
    ∧ close_lua (close_lua v) = close_lua v := by
  refine ⟨?_, ?_, ?_, ?_, ?_, rfl⟩ <;>
    simp [read_lua, sysRead, close_lua, bytes_lua, getu_lua,
      get8u_lua, get16u_lua, get32u_lua]

/-- C10: the closed-descriptor check runs before any argument validation —
on a closed session a typed accessor returns the `EBADF` error even for an
offset that would trigger the out-of-range error, or for a count that
would trigger the insufficient-data error, and `bytes` returns the `EBADF`
error (not a bare `nil`) even for an offset past the valid region. -/
theorem claim10_closed_check_first (u : Urandom) (le : Bool) (op : String)
    (w c k : Nat) (hclosed : u.fdOpen = false) (hk : 1 ≤ k) :
    (u.len / w ≤ k - 1 →
      getu_lua le u op (w * 8) none (some k) = .err (.badf op))
    ∧ (k - 1 < u.len / w → u.len / w - (k - 1) < c →
      getu_lua le u op (w * 8) (some c) (some k) = .err (.badf op))
    ∧ (u.len ≤ k - 1 →
      bytes_lua u (some c) (some k) = .err (.badf "os.urandom.bytes")) := by
  refine ⟨fun _ => ?_, fun _ _ => ?_, fun _ => ?_⟩ <;>
    simp [getu_lua, bytes_lua, hclosed]

/-- C10 witness: on the closed session, `get8u` at the out-of-range offset
17 and with the over-large count 20, and `bytes` at offset 17, all report
`EBADF`. -/
theorem claim10_witness :
    (close_lua uC3).fdOpen = false ∧ 1 ≤ 17 ∧
    (((close_lua uC3).len / 1 ≤ 17 - 1 →
      getu_lua true (close_lua uC3) "os.urandom.get8u" (1 * 8) none (some 17)
        = .err (.badf "os.urandom.get8u"))
    ∧ (17 - 1 < (close_lua uC3).len / 1 →
        (close_lua uC3).len / 1 - (17 - 1) < 20 →
      getu_lua true (close_lua uC3) "os.urandom.get8u" (1 * 8) (some 20)
          (some 17)
        = .err (.badf "os.urandom.get8u"))
    ∧ ((close_lua uC3).len ≤ 17 - 1 →
      bytes_lua (close_lua uC3) (some 20) (some 17)
        = .err (.badf "os.urandom.bytes"))) :=
  ⟨by decide, by decide,
    claim10_closed_check_first (close_lua uC3) true "os.urandom.get8u" 1 20 17
      (by decide) (by decide)⟩

end OsUrandom
